import Mathlib

set_option maxRecDepth 8000

/-!
Shallow embedding of the company-inner-search application
(`components.py`, `initialize.py`, `utils.py`) and proofs of the
specified properties of its response shaping, citation handling,
file loading and text normalization.
-/

namespace CompanySearch

/-! ### Generic string helpers (modelling Python `str` operations on `List Char`) -/

/-- `hasPre pre s` : `pre` is an initial segment of `s`
(the character-level content of Python `s.startswith(pre)`). -/
def hasPre : List Char → List Char → Bool
  | [], _ => true
  | _ :: _, [] => false
  | a :: pr, b :: sr => a == b && hasPre pr sr

/-- Python `s.startswith(pre)`. -/
def pyStartswith (s pre : String) : Bool :=
  hasPre pre.toList s.toList

/-- Character-wise lower-casing, modelling Python `str.lower()`. -/
def lowerL (cs : List Char) : List Char :=
  cs.map Char.toLower

/-- Python `str.lower()` on `String`. -/
def strLower (s : String) : String :=
  String.mk (lowerL s.toList)

/-- Split a character list at every occurrence of the separator `c`
(the pieces do not contain `c`; `n+1` pieces for `n` separators). -/
def splitOnChar (c : Char) : List Char → List (List Char)
  | [] => [[]]
  | a :: r =>
    if a = c then [] :: splitOnChar c r
    else
      match splitOnChar c r with
      | h :: t => (a :: h) :: t
      | [] => [[a]]

/-- Index of the last occurrence of `c` in `cs`, if any
(Python `str.rfind`). -/
def lastIdx (c : Char) (cs : List Char) : Option Nat :=
  ((cs.enum.filter (fun p => p.2 = c)).map (fun p => p.1)).getLast?

/-! ### Path helpers

`_fmt_with_page_if_pdf` uses `pathlib.Path(str(path)).suffix`; `file_load`
uses `os.path.splitext(path)[1]` and `os.path.basename(path)`.  Both are
embedded here for POSIX paths (`'/'` separator). -/

/-- `pathlib.PurePosixPath(p).name`: the last path component, where empty
components and `'.'` components are dropped (and the empty path has name `""`). -/
def pathNameL (cs : List Char) : List Char :=
  (((splitOnChar '/' cs).filter (fun comp => ¬(comp = [] ∨ comp = ['.']))).getLast?).getD []

/-- `pathlib.PurePosixPath(p).suffix`: the final extension of the last
component, computed as `name[i:]` for `i` the last `'.'` index, provided
`0 < i < len(name) - 1`; otherwise `""`. -/
def pathSuffixL (cs : List Char) : List Char :=
  let name := pathNameL cs
  match lastIdx '.' name with
  | some i => if 0 < i ∧ i + 1 < name.length then name.drop i else []
  | none => []

/-- `os.path.splitext(p)[1]`: the extension including the dot, empty when the
last dot is not after the last separator or when the last component consists
only of leading dots up to that index. -/
def splitextExt (p : String) : String :=
  let cs := p.toList
  let sep : Int := match lastIdx '/' cs with | some i => (i : Int) | none => -1
  let dot : Int := match lastIdx '.' cs with | some i => (i : Int) | none => -1
  if sep < dot then
    let between := (cs.drop (sep + 1).toNat).take (dot - sep - 1).toNat
    if between.all (fun c => c = '.') then "" else String.mk (cs.drop dot.toNat)
  else ""

/-- `os.path.basename(p)`: everything after the last `'/'`. -/
def basename (p : String) : String :=
  String.mk (((splitOnChar '/' p.toList).getLast?).getD [])

/-! ### Python scalar values

Metadata values of LangChain `Document`s are scalars; this models the Python
values that actually flow through the code (`str`, `int`, `bool`, `None`). -/

/-- A Python scalar value as it occurs in document metadata. -/
inductive Scalar where
  | str (s : String)
  | int (n : Int)
  | bool (b : Bool)
  | pynone
deriving DecidableEq

/-- Python `str(v)`. -/
def pyStr : Scalar → String
  | .str s => s
  | .int n => toString n
  | .bool b => if b then "True" else "False"
  | .pynone => "None"

/-- Python truthiness of a scalar (`bool(v)`). -/
def pyTruthy : Scalar → Bool
  | .str s => s ≠ ""
  | .int n => n ≠ 0
  | .bool b => b
  | .pynone => false

/-- Python `isinstance(v, int)` (`True` for `bool` as well, since
`bool` is a subclass of `int`). -/
def pyIsInt : Scalar → Bool
  | .int _ => true
  | .bool _ => true
  | _ => false

/-- The integer value of a scalar for which `pyIsInt` holds. -/
def pyToInt : Scalar → Int
  | .int n => n
  | .bool b => if b then 1 else 0
  | _ => 0

/-- Whether the scalar is a Python `str`. -/
def isStrScalar : Scalar → Bool
  | .str _ => true
  | _ => false

/-! ### The document / retrieval data model -/

/-- A LangChain `Document`: text content plus a string-keyed metadata mapping. -/
structure Document where
  page_content : String
  metadata : List (String × Scalar)
deriving DecidableEq

/-- `metadata.get(key)` / `key in metadata` combined: the stored value, if present. -/
def metaGet : List (String × Scalar) → String → Option Scalar
  | [], _ => Option.none
  | kv :: rest, key => if kv.1 = key then some kv.2 else metaGet rest key

/-- `doc.metadata.get("source", "")` as used by both display functions. -/
def docSource (d : Document) : Scalar :=
  (metaGet d.metadata "source").getD (Scalar.str "")

/-- `doc.metadata.get("page") if "page" in doc.metadata else None`. -/
def docPage (d : Document) : Scalar :=
  (metaGet d.metadata "page").getD Scalar.pynone

/-- The result of the retrieval chain as consumed by the display functions:
`llm_response["context"]` (ranked passages) and `llm_response["answer"]`. -/
structure LLMResponse where
  context : List Document
  answer : String

/-! ### Constants

Modelled from the spec: the repository's `constants.py` (imported as
`ct`) is not under `src/`; only its names are visible from the three source
files.  The spec treats these as fixed opaque tokens (mode tags, sentinel
answers, fixed user-facing messages, icon categories), so they are given
concrete distinct values here; no claim depends on the exact text. -/

/-- Modelled from the spec: the "document search" mode tag `ct.ANSWER_MODE_1`. -/
def ANSWER_MODE_1 : String := "社内文書検索"

/-- Modelled from the spec: the "inquiry" mode tag `ct.ANSWER_MODE_2`. -/
def ANSWER_MODE_2 : String := "社内問い合わせ"

/-- Modelled from the spec: the search-mode no-match sentinel answer
`ct.NO_DOC_MATCH_ANSWER`. -/
def NO_DOC_MATCH_ANSWER : String := "NO_DOC_MATCH_ANSWER"

/-- Modelled from the spec: the fixed "no documents found" user message
`ct.NO_DOC_MATCH_MESSAGE`. -/
def NO_DOC_MATCH_MESSAGE : String := "入力内容と関連する社内文書が見つかりませんでした。"

/-- Modelled from the spec: the inquiry-mode no-match sentinel answer
`ct.INQUIRY_NO_MATCH_ANSWER`. -/
def INQUIRY_NO_MATCH_ANSWER : String := "回答に必要な情報が見つかりませんでした。"

/-- Modelled from the spec: the "link" icon `ct.LINK_SOURCE_ICON`. -/
def LINK_SOURCE_ICON : String := "🔗"

/-- Modelled from the spec: the "document" icon `ct.DOC_SOURCE_ICON`. -/
def DOC_SOURCE_ICON : String := "📄"

/-! ### `utils.py` -/

/-- `utils.get_source_icon`: link icon when `str(source).startswith("http")`,
document icon otherwise (`utils.py:32-38`). -/
def get_source_icon (source : Scalar) : String :=
  if pyStartswith (pyStr source) "http" then LINK_SOURCE_ICON else DOC_SOURCE_ICON

/-- Spec-side predicate, written from the spec's words for the refinement
comparison in the icon claim: "sources beginning with an HTTP(S) scheme". -/
def beginsWithHttpScheme (s : String) : Bool :=
  pyStartswith s "http://" || pyStartswith s "https://"

/-! ### `components.py`: citation formatting -/

/-- `_fmt_with_page_if_pdf` (`components.py:17-21`): when
`Path(str(path)).suffix.lower() == ".pdf"` and `isinstance(page, int)`,
render `f"{path}（p.{page + 1}）"`, else `str(path)`. -/
def _fmt_with_page_if_pdf (path page : Scalar) : String :=
  let s := pyStr path
  if lowerL (pathSuffixL s.toList) = ".pdf".toList ∧ pyIsInt page = true then
    s ++ "（p." ++ toString (pyToInt page + 1) ++ "）"
  else s

/-! ### `components.py`: rendered UI elements

The Streamlit calls the display functions make, in order: `st.markdown`,
`st.success(text, icon)`, `st.info(text, icon)`, `st.divider`. -/

/-- A rendered Streamlit element, the observable UI output of a message. -/
inductive El where
  | markdown (s : String)
  | success (text icon : String)
  | info (text icon : String)
  | divider
deriving DecidableEq

/-- A secondary-citation entry `{"source": ..., "page_number": ...}`. -/
structure SubChoice where
  source : Scalar
  page_number : Scalar
deriving DecidableEq

/-- A value stored in an assistant content dictionary: a scalar, the
`sub_choices` list of citation dictionaries, or the `file_info_list`
list of formatted strings. -/
inductive CVal where
  | sc (v : Scalar)
  | subs (l : List SubChoice)
  | strs (l : List String)
deriving DecidableEq

/-- An assistant content dictionary (the log entry / render payload),
modelled as an insertion-ordered association list with distinct keys. -/
abbrev Content := List (String × CVal)

/-- Python dictionary lookup `content[key]` / `content.get(key)`. -/
def cget : Content → String → Option CVal
  | [], _ => Option.none
  | kv :: rest, key => if kv.1 = key then some kv.2 else cget rest key

/-! ### `components.py`: response shaping (the two `display_*_llm_response`
functions), returning the rendered elements and the content dictionary -/

/-- The secondary-citation loop of `display_search_llm_response`
(`components.py:119-126`): scan passages in rank order, skip falsy or
already-seen sources, collect `{"source", "page_number"}` entries;
the `shown` set is carried as a list. -/
def searchLoop : List Document → List SubChoice × List Scalar → List SubChoice × List Scalar
  | [], acc => acc
  | doc :: rest, (subs, shown) =>
    let fp := docSource doc
    if pyTruthy fp = false ∨ fp ∈ shown then searchLoop rest (subs, shown)
    else searchLoop rest (subs ++ [⟨fp, docPage doc⟩], fp :: shown)

/-- The source-list loop of `display_contact_llm_response`
(`components.py:168-178`): skip falsy or seen sources, emit
`st.info(formatted, icon)` and append the formatted string. -/
def contactLoop :
    List Document → List El × List String × List Scalar → List El × List String × List Scalar
  | [], acc => acc
  | doc :: rest, (els, infos, seen) =>
    let fp := docSource doc
    if pyTruthy fp = false ∨ fp ∈ seen then contactLoop rest (els, infos, seen)
    else
      let formatted := _fmt_with_page_if_pdf fp (docPage doc)
      contactLoop rest
        (els ++ [El.info formatted (get_source_icon fp)], infos ++ [formatted], fp :: seen)

/-- The no-hit branch of `display_search_llm_response`
(`components.py:147-153`). -/
def searchNoMatch : List El × Content :=
  ([El.markdown NO_DOC_MATCH_MESSAGE],
   [("mode", CVal.sc (Scalar.str ANSWER_MODE_1)),
    ("answer", CVal.sc (Scalar.str NO_DOC_MATCH_MESSAGE)),
    ("no_file_path_flg", CVal.sc (Scalar.bool true))])

/-- `display_search_llm_response` (`components.py:101-153`): renders the
search-mode response and returns the content dictionary that `main.py`
appends to the message log. -/
def display_search_llm_response (resp : LLMResponse) : List El × Content :=
  match resp.context with
  | main_doc :: rest =>
    if resp.answer = NO_DOC_MATCH_ANSWER then searchNoMatch
    else
      let main_file_path := docSource main_doc
      let main_page_number := docPage main_doc
      let main_message := "入力内容に関する情報は、以下のファイルに含まれている可能性があります。"
      let sub_message := "その他、ファイルありかの候補を提示します。"
      let sub_choices := (searchLoop rest ([], [main_file_path])).1
      let els :=
        [El.markdown main_message,
         El.success (_fmt_with_page_if_pdf main_file_path main_page_number)
           (get_source_icon main_file_path)]
        ++ (if sub_choices = [] then []
            else El.markdown sub_message ::
              sub_choices.map (fun sub =>
                El.info (_fmt_with_page_if_pdf sub.source sub.page_number)
                  (get_source_icon sub.source)))
      let content : Content :=
        [("mode", CVal.sc (Scalar.str ANSWER_MODE_1)),
         ("main_message", CVal.sc (Scalar.str main_message)),
         ("main_file_path", CVal.sc main_file_path)]
        ++ (if main_page_number = Scalar.pynone then []
            else [("main_page_number", CVal.sc main_page_number)])
        ++ (if sub_choices = [] then []
            else [("sub_message", CVal.sc (Scalar.str sub_message)),
                  ("sub_choices", CVal.subs sub_choices)])
      (els, content)
  | [] => searchNoMatch

/-- `display_contact_llm_response` (`components.py:156-192`): renders the
inquiry-mode response and returns the content dictionary for the log. -/
def display_contact_llm_response (resp : LLMResponse) : List El × Content :=
  if resp.answer = INQUIRY_NO_MATCH_ANSWER then
    ([El.markdown resp.answer],
     [("mode", CVal.sc (Scalar.str ANSWER_MODE_2)),
      ("answer", CVal.sc (Scalar.str resp.answer))])
  else
    let message := "情報源"
    let r := contactLoop resp.context ([], [], [])
    ([El.markdown resp.answer, El.divider, El.markdown ("##### " ++ message)] ++ r.1,
     [("mode", CVal.sc (Scalar.str ANSWER_MODE_2)),
      ("answer", CVal.sc (Scalar.str resp.answer)),
      ("message", CVal.sc (Scalar.str message)),
      ("file_info_list", CVal.strs r.2.1)])

/-! ### `components.py`: conversation-log replay (`display_conversation_log`
and the two `_render_*_message` helpers)

Replay is partial in Python (`KeyError` on a malformed dictionary); that is
modelled by returning `Option.none` for contents the code would crash on. -/

/-- `_render_search_message` (`components.py:70-88`). -/
def _render_search_message (content : Content) : Option (List El) :=
  if (cget content "no_file_path_flg").isSome then
    match cget content "answer" with
    | some (CVal.sc (Scalar.str ans)) => some [El.markdown ans]
    | _ => Option.none
  else
    match cget content "main_message", cget content "main_file_path" with
    | some (CVal.sc (Scalar.str mm)), some (CVal.sc mfp) =>
      let mpn : Scalar :=
        match cget content "main_page_number" with
        | some (CVal.sc v) => v
        | _ => Scalar.pynone
      let base :=
        [El.markdown mm,
         El.success (_fmt_with_page_if_pdf mfp mpn) (get_source_icon mfp)]
      match cget content "sub_choices" with
      | some (CVal.subs l) =>
        if l = [] then some base
        else
          match cget content "sub_message" with
          | some (CVal.sc (Scalar.str sm)) =>
            some (base ++ El.markdown sm ::
              l.map (fun sub =>
                El.info (_fmt_with_page_if_pdf sub.source sub.page_number)
                  (get_source_icon sub.source)))
          | _ => Option.none
      | some _ => Option.none
      | Option.none => some base
    | _, _ => Option.none

/-- `_render_contact_message` (`components.py:91-98`). -/
def _render_contact_message (content : Content) : Option (List El) :=
  match cget content "answer" with
  | some (CVal.sc (Scalar.str ans)) =>
    match cget content "file_info_list" with
    | some (CVal.strs l) =>
      match cget content "message" with
      | some (CVal.sc (Scalar.str msg)) =>
        some ([El.markdown ans, El.divider, El.markdown ("##### " ++ msg)] ++
          l.map (fun fi => El.info fi (get_source_icon (Scalar.str fi))))
      | _ => Option.none
    | some _ => Option.none
    | Option.none => some [El.markdown ans]
  | _ => Option.none

/-- The assistant branch of `display_conversation_log`
(`components.py:63-67`): dispatch on `content["mode"]`. -/
def renderAssistantMessage (content : Content) : Option (List El) :=
  match cget content "mode" with
  | some v =>
    if v = CVal.sc (Scalar.str ANSWER_MODE_1) then _render_search_message content
    else _render_contact_message content
  | Option.none => Option.none

/-- The `sub_choices` list stored in a search content dictionary
(empty when the key is absent). -/
def subChoicesOf (content : Content) : List SubChoice :=
  match cget content "sub_choices" with
  | some (CVal.subs l) => l
  | _ => []

/-- The `file_info_list` stored in an inquiry content dictionary
(empty when the key is absent). -/
def fileInfoListOf (content : Content) : List String :=
  match cget content "file_info_list" with
  | some (CVal.strs l) => l
  | _ => []

/-- Specification-level first-occurrence deduplication: scan documents in
rank order, skip falsy or already-seen sources, keep the first occurrence
of each remaining source together with that occurrence's page.  Both
display loops are proved equal to it. -/
def specCitations (seen : List Scalar) : List Document → List SubChoice
  | [] => []
  | d :: rest =>
    let fp := docSource d
    if pyTruthy fp = false ∨ fp ∈ seen then specCitations seen rest
    else ⟨fp, docPage d⟩ :: specCitations (fp :: seen) rest

/-- The final `seen`/`shown` set (as a list) after scanning `docs`. -/
def seenAfter (seen : List Scalar) : List Document → List Scalar
  | [] => seen
  | d :: rest =>
    let fp := docSource d
    if pyTruthy fp = false ∨ fp ∈ seen then seenAfter seen rest
    else seenAfter (fp :: seen) rest

/-! ### `initialize.py`: text normalization (`adjust_string`, lines 210-220)

`adjust_string` returns non-`str` values unchanged; on a platform whose
`sys.platform` starts with `"win"` it applies `unicodedata.normalize('NFC', s)`
followed by `s.encode("cp932", "ignore").decode("cp932")`.  The NFC table is
external, so it is a parameter `nfc`; the cp932 round trip keeps exactly the
cp932-encodable characters (encoding with `"ignore"` drops the rest and
decoding restores the kept ones), so it is the filter by a parameter
`enc : Char → Bool` ("is cp932-encodable"). -/

/-- `adjust_string(s)` (`initialize.py:210-220`), parameterized by the
platform string and by the external NFC / cp932 tables. -/
def adjust_string (platform : String) (nfc : List Char → List Char)
    (enc : Char → Bool) : Scalar → Scalar
  | Scalar.str s =>
    if pyStartswith platform "win" = true then
      Scalar.str (String.mk ((nfc s.toList).filter enc))
    else Scalar.str s
  | v => v

/-- The string content of a scalar, with a fallback for non-strings. -/
def scalarToStr (v : Scalar) (fallback : String) : String :=
  match v with
  | Scalar.str s => s
  | _ => fallback

/-- The per-document normalization step of `initialize_retriever`
(`initialize.py:113-117`): `adjust_string` applied to `page_content` and to
every metadata value. -/
def normalizeDoc (platform : String) (nfc : List Char → List Char)
    (enc : Char → Bool) (d : Document) : Document :=
  { page_content :=
      scalarToStr (adjust_string platform nfc enc (Scalar.str d.page_content)) d.page_content,
    metadata := d.metadata.map (fun kv => (kv.1, adjust_string platform nfc enc kv.2)) }

/-! ### `initialize.py`: file loading -/

/-- A parsed CSV row: column name to cell text (the view `pandas` /
`CSVLoader` give of one row). -/
abbrev Row := List (String × String)

/-- `r.get(col, '')` on a row. -/
def rget (r : Row) (col : String) : String :=
  ((r.find? (fun kv => kv.1 = col)).map (fun kv => kv.2)).getD ""

/-- One formatted staff line, from the f-string in
`_load_and_merge_staff_csv` (`initialize.py:178-180`). -/
def staffLine (r : Row) : String :=
  "部署:" ++ rget r "部署" ++ " 氏名:" ++ rget r "氏名" ++
  " 役職:" ++ rget r "役職" ++ " メール:" ++ rget r "メール"

/-- `_load_and_merge_staff_csv` (`initialize.py:171-182`): all rows merged
into one synthetic `Document` with `kind=merged_csv`. -/
def _load_and_merge_staff_csv (csv_path : String) (rows : List Row) : List Document :=
  [{ page_content := String.intercalate "\n" (rows.map staffLine),
     metadata := [("source", Scalar.str csv_path), ("kind", Scalar.str "merged_csv")] }]

/-- The page content `CSVLoader` gives one row: `"col: value"` lines. -/
def rowText (r : Row) : String :=
  String.intercalate "\n" (r.map (fun kv => kv.1 ++ ": " ++ kv.2))

/-- Row documents with their zero-based row index. -/
def csvRowDocs (path : String) (i : Nat) : List Row → List Document
  | [] => []
  | r :: rest =>
    { page_content := rowText r,
      metadata := [("source", Scalar.str path), ("row", Scalar.int (i : Int))] }
      :: csvRowDocs path (i + 1) rest

/-- Modelled from the spec: `langchain` `CSVLoader.load()` is external (not
under `src/`); per the spec, "`.csv` → one Document per row". -/
def csvLoader_load (path : String) (rows : List Row) : List Document :=
  csvRowDocs path 0 rows

/-- Modelled from the spec: `PyPDFLoader.load()` is external; per the spec,
"`.pdf` → one Document per page with `page` set to the zero-based page index". -/
def pyPdfLoader_load (path : String) (pages : List String) : List Document :=
  (pages.enum).map (fun p =>
    { page_content := p.2,
      metadata := [("source", Scalar.str path), ("page", Scalar.int (p.1 : Int))] })

/-- Modelled from the spec: `Docx2txtLoader.load()` is external; per the spec,
"`.docx` → one Document for the whole file". -/
def docx2txtLoader_load (path : String) (text : String) : List Document :=
  [{ page_content := text, metadata := [("source", Scalar.str path)] }]

/-! ### Strict UTF-8 decoding (the `encoding="utf-8"` of `TextLoader`)

A byte-level decoder with the standard validity ranges (no overlong forms,
no surrogates, maximum U+10FFFF), as Python's `utf-8` codec enforces. -/

/-- A UTF-8 continuation byte. -/
def isCont (b : Nat) : Bool := 0x80 ≤ b && b ≤ 0xBF

/-- Strict UTF-8 decoding of a byte list to code points; `Option.none` on
any invalid sequence. -/
def utf8Decode : List Nat → Option (List Nat)
  | [] => some []
  | b :: rest =>
    if b ≤ 0x7F then (utf8Decode rest).map (fun l => b :: l)
    else if b < 0xC2 then Option.none
    else if b ≤ 0xDF then
      match rest with
      | b2 :: r =>
        if isCont b2 then
          (utf8Decode r).map (fun l => ((b - 0xC0) * 0x40 + (b2 - 0x80)) :: l)
        else Option.none
      | [] => Option.none
    else if b ≤ 0xEF then
      match rest with
      | b2 :: b3 :: r =>
        if (if b = 0xE0 then 0xA0 ≤ b2 && b2 ≤ 0xBF
            else if b = 0xED then 0x80 ≤ b2 && b2 ≤ 0x9F
            else isCont b2) && isCont b3 then
          (utf8Decode r).map (fun l =>
            ((b - 0xE0) * 0x1000 + (b2 - 0x80) * 0x40 + (b3 - 0x80)) :: l)
        else Option.none
      | _ => Option.none
    else if b ≤ 0xF4 then
      match rest with
      | b2 :: b3 :: b4 :: r =>
        if (if b = 0xF0 then 0x90 ≤ b2 && b2 ≤ 0xBF
            else if b = 0xF4 then 0x80 ≤ b2 && b2 ≤ 0x8F
            else isCont b2) && isCont b3 && isCont b4 then
          (utf8Decode r).map (fun l =>
            ((b - 0xF0) * 0x40000 + (b2 - 0x80) * 0x1000 +
              (b3 - 0x80) * 0x40 + (b4 - 0x80)) :: l)
        else Option.none
      | _ => Option.none
    else Option.none

/-- UTF-8 decoding to a `String`. -/
def utf8DecodeStr (bs : List Nat) : Option String :=
  (utf8Decode bs).map (fun cps => String.mk (cps.map Char.ofNat))

/-- The data-source side of `file_load`: the raw bytes of a file (consumed
by `TextLoader`), its parsed CSV rows (consumed by `pandas` / `CSVLoader`),
its PDF page texts, and its docx text — the views the external loaders
provide of the file at a path. -/
structure FS where
  bytes : String → List Nat
  rows : String → List Row
  pdfPages : String → List String
  docxText : String → String

/-- `file_load` (`initialize.py:185-207`): dispatch on
`os.path.splitext(path)[1].lower()`; `社員名簿.csv` (by
`os.path.basename`) is merged, other CSVs load row-wise, `.txt` decodes as
UTF-8 (a decoding error propagates, modelled as `Except.error`), and any
other extension is silently skipped. -/
def file_load (fs : FS) (path : String) : Except String (List Document) :=
  let ext := strLower (splitextExt path)
  let fname := basename path
  if ext = ".pdf" then Except.ok (pyPdfLoader_load path (fs.pdfPages path))
  else if ext = ".docx" then Except.ok (docx2txtLoader_load path (fs.docxText path))
  else if ext = ".csv" then
    if fname = "社員名簿.csv" then Except.ok (_load_and_merge_staff_csv path (fs.rows path))
    else Except.ok (csvLoader_load path (fs.rows path))
  else if ext = ".txt" then
    match utf8DecodeStr (fs.bytes path) with
    | some t => Except.ok [{ page_content := t, metadata := [("source", Scalar.str path)] }]
    | Option.none => Except.error ("UnicodeDecodeError: " ++ path)
  else Except.ok []

/-! ## Helper lemmas -/

theorem hasPre_append_of (p s t : List Char) (h : hasPre p s = true) :
    hasPre p (s ++ t) = true := by
  induction p generalizing s with
  | nil => rfl
  | cons a pr ih =>
    cases s with
    | nil => simp [hasPre] at h
    | cons b sr =>
      simp only [hasPre, Bool.and_eq_true] at h ⊢
      exact ⟨h.1, ih sr h.2⟩

theorem hasPre_append_cases (p s t : List Char) (h : hasPre p (s ++ t) = true) :
    hasPre p s = true ∨ hasPre s p = true := by
  induction p generalizing s with
  | nil => left; rfl
  | cons a pr ih =>
    cases s with
    | nil => right; rfl
    | cons b sr =>
      simp only [List.cons_append, hasPre, Bool.and_eq_true] at h
      rcases ih sr h.2 with h1 | h1
      · left; simp only [hasPre, Bool.and_eq_true]; exact ⟨h.1, h1⟩
      · right; simp only [hasPre, Bool.and_eq_true]
        exact ⟨by simpa [beq_iff_eq] using (beq_iff_eq.mp h.1).symm, h1⟩

theorem hasPre_take (a b : List Char) (h : hasPre a b = true) :
    a = b.take a.length := by
  induction a generalizing b with
  | nil => rfl
  | cons x ar ih =>
    cases b with
    | nil => simp [hasPre] at h
    | cons y br =>
      simp only [hasPre, Bool.and_eq_true, beq_iff_eq] at h
      simp only [List.length_cons, List.take_succ_cons]
      exact congrArg₂ List.cons h.1 (ih br h.2)

theorem hasPre_trans (p q s : List Char) (h1 : hasPre p q = true)
    (h2 : hasPre q s = true) : hasPre p s = true := by
  induction p generalizing q s with
  | nil => rfl
  | cons a pr ih =>
    cases q with
    | nil => simp [hasPre] at h1
    | cons b qr =>
      cases s with
      | nil => simp [hasPre] at h2
      | cons c sr =>
        simp only [hasPre, Bool.and_eq_true, beq_iff_eq] at h1 h2 ⊢
        exact ⟨h1.1.trans h2.1, ih qr sr h1.2 h2.2⟩

theorem filter_twice {α : Type} (p : α → Bool) (l : List α) :
    (l.filter p).filter p = l.filter p := by
  induction l with
  | nil => rfl
  | cons a r ih =>
    by_cases h : p a <;> simp [List.filter_cons, h, ih]

/-- If a string's pathlib suffix lower-cases to `.pdf`, appending anything to
it does not change whether it starts with `"http"` (such a string cannot be a
proper initial segment of `"http"`, which contains no dot). -/
theorem startswith_append_of_pdfsuffix (x : String) (t : List Char)
    (h : lowerL (pathSuffixL x.toList) = ".pdf".toList) :
    hasPre "http".toList (x.toList ++ t) = hasPre "http".toList x.toList := by
  by_cases hx : hasPre "http".toList x.toList = true
  · rw [hx, hasPre_append_of _ _ _ hx]
  · rw [Bool.not_eq_true] at hx
    rw [hx]
    by_cases hxt : hasPre "http".toList (x.toList ++ t) = true
    · exfalso
      rcases hasPre_append_cases _ _ _ hxt with h1 | h1
      · rw [h1] at hx; cases hx
      · have hx4 : x.toList = ("http".toList).take x.toList.length := hasPre_take _ _ h1
        have hlen : x.toList.length ≤ 4 := by
          have hl := congrArg List.length hx4
          simp only [List.length_take, show ("http".toList).length = 4 from rfl] at hl
          omega
        have hcase : x.toList.length = 0 ∨ x.toList.length = 1 ∨ x.toList.length = 2 ∨
            x.toList.length = 3 ∨ x.toList.length = 4 := by omega
        rcases hcase with h0 | h0 | h0 | h0 | h0 <;> rw [h0] at hx4
        · rw [show ("http".toList).take 0 = [] from rfl] at hx4
          rw [hx4] at h; exact absurd h (by decide)
        · rw [show ("http".toList).take 1 = ['h'] from rfl] at hx4
          rw [hx4] at h; exact absurd h (by decide)
        · rw [show ("http".toList).take 2 = ['h', 't'] from rfl] at hx4
          rw [hx4] at h; exact absurd h (by decide)
        · rw [show ("http".toList).take 3 = ['h', 't', 't'] from rfl] at hx4
          rw [hx4] at h; exact absurd h (by decide)
        · rw [show ("http".toList).take 4 = ['h', 't', 't', 'p'] from rfl] at hx4
          rw [hx4] at hx; exact absurd hx (by decide)
    · rw [Bool.not_eq_true] at hxt
      rw [hxt]

/-- Replaying an already-formatted citation string through `get_source_icon`
selects the same icon as the raw source did. -/
theorem get_source_icon_fmt (s p : Scalar) :
    get_source_icon (Scalar.str (_fmt_with_page_if_pdf s p)) = get_source_icon s := by
  unfold _fmt_with_page_if_pdf
  by_cases hc : lowerL (pathSuffixL (pyStr s).toList) = ".pdf".toList ∧ pyIsInt p = true
  · rw [if_pos hc]
    show (if pyStartswith (pyStr s ++ "（p." ++ toString (pyToInt p + 1) ++ "）") "http" = true
          then LINK_SOURCE_ICON else DOC_SOURCE_ICON) = get_source_icon s
    unfold get_source_icon pyStartswith
    have hdata : (pyStr s ++ "（p." ++ toString (pyToInt p + 1) ++ "）").toList
        = (pyStr s).toList ++ ("（p.".toList ++ (toString (pyToInt p + 1)).toList ++ "）".toList) := by
      simp [String.toList, String.data_append]
    rw [hdata, startswith_append_of_pdfsuffix _ _ hc.1]
  · rw [if_neg hc]
    rfl

theorem searchLoop_eq (docs : List Document) :
    ∀ (subs : List SubChoice) (seen : List Scalar),
    searchLoop docs (subs, seen) = (subs ++ specCitations seen docs, seenAfter seen docs) := by
  induction docs with
  | nil => intro subs seen; simp [searchLoop, specCitations, seenAfter]
  | cons d rest ih =>
    intro subs seen
    show (if pyTruthy (docSource d) = false ∨ docSource d ∈ seen
          then searchLoop rest (subs, seen)
          else searchLoop rest (subs ++ [⟨docSource d, docPage d⟩], docSource d :: seen)) = _
    by_cases hc : pyTruthy (docSource d) = false ∨ docSource d ∈ seen
    · rw [if_pos hc, ih]
      show _ = (subs ++ specCitations seen (d :: rest), seenAfter seen (d :: rest))
      simp only [specCitations, seenAfter, if_pos hc]
    · rw [if_neg hc, ih]
      show _ = (subs ++ specCitations seen (d :: rest), seenAfter seen (d :: rest))
      simp only [specCitations, seenAfter, if_neg hc]
      simp

theorem contactLoop_eq (docs : List Document) :
    ∀ (els : List El) (infos : List String) (seen : List Scalar),
    contactLoop docs (els, infos, seen) =
      (els ++ (specCitations seen docs).map (fun sc =>
          El.info (_fmt_with_page_if_pdf sc.source sc.page_number) (get_source_icon sc.source)),
       infos ++ (specCitations seen docs).map (fun sc =>
          _fmt_with_page_if_pdf sc.source sc.page_number),
       seenAfter seen docs) := by
  induction docs with
  | nil => intro els infos seen; simp [contactLoop, specCitations, seenAfter]
  | cons d rest ih =>
    intro els infos seen
    show (if pyTruthy (docSource d) = false ∨ docSource d ∈ seen
          then contactLoop rest (els, infos, seen)
          else contactLoop rest
            (els ++ [El.info (_fmt_with_page_if_pdf (docSource d) (docPage d))
                (get_source_icon (docSource d))],
             infos ++ [_fmt_with_page_if_pdf (docSource d) (docPage d)],
             docSource d :: seen)) = _
    by_cases hc : pyTruthy (docSource d) = false ∨ docSource d ∈ seen
    · rw [if_pos hc, ih]
      simp only [specCitations, seenAfter, if_pos hc]
    · rw [if_neg hc, ih]
      simp only [specCitations, seenAfter, if_neg hc]
      simp

theorem specCitations_mem (docs : List Document) :
    ∀ (seen : List Scalar) (v : Scalar),
    v ∈ (specCitations seen docs).map SubChoice.source ↔
      (pyTruthy v = true ∧ v ∉ seen ∧ v ∈ docs.map docSource) := by
  induction docs with
  | nil => intro seen v; simp [specCitations]
  | cons d rest ih =>
    intro seen v
    show v ∈ ((if pyTruthy (docSource d) = false ∨ docSource d ∈ seen
          then specCitations seen rest
          else ⟨docSource d, docPage d⟩ :: specCitations (docSource d :: seen) rest).map
            SubChoice.source) ↔ _
    by_cases hc : pyTruthy (docSource d) = false ∨ docSource d ∈ seen
    · rw [if_pos hc]
      rw [List.map_cons, List.mem_cons]
      constructor
      · intro hm
        have h' := (ih seen v).mp hm
        exact ⟨h'.1, h'.2.1, Or.inr h'.2.2⟩
      · rintro ⟨ht, hns, hv | hm⟩
        · exfalso
          rw [hv] at ht hns
          rcases hc with h1 | h1
          · rw [ht] at h1; cases h1
          · exact hns h1
        · exact (ih seen v).mpr ⟨ht, hns, hm⟩
    · rw [if_neg hc]
      push_neg at hc
      have htr : pyTruthy (docSource d) = true := by
        cases h' : pyTruthy (docSource d)
        · exact absurd h' hc.1
        · rfl
      rw [List.map_cons, List.mem_cons, List.map_cons, List.mem_cons]
      constructor
      · rintro (hv | hm)
        · rw [hv]
          exact ⟨htr, hc.2, Or.inl rfl⟩
        · have h' := (ih _ v).mp hm
          refine ⟨h'.1, fun hvs => h'.2.1 (List.mem_cons_of_mem _ hvs), Or.inr h'.2.2⟩
      · rintro ⟨ht, hns, hv | hm⟩
        · exact Or.inl hv
        · by_cases hvd : v = docSource d
          · exact Or.inl hvd
          · refine Or.inr ((ih _ v).mpr ⟨ht, ?_, hm⟩)
            intro hv'
            rcases List.mem_cons.mp hv' with h1 | h1
            · exact hvd h1
            · exact hns h1

theorem specCitations_nodup (docs : List Document) :
    ∀ (seen : List Scalar), ((specCitations seen docs).map SubChoice.source).Nodup := by
  induction docs with
  | nil => intro seen; simp [specCitations]
  | cons d rest ih =>
    intro seen
    show (((if pyTruthy (docSource d) = false ∨ docSource d ∈ seen
          then specCitations seen rest
          else ⟨docSource d, docPage d⟩ :: specCitations (docSource d :: seen) rest)).map
            SubChoice.source).Nodup
    by_cases hc : pyTruthy (docSource d) = false ∨ docSource d ∈ seen
    · rw [if_pos hc]; exact ih seen
    · rw [if_neg hc]
      rw [List.map_cons]
      refine List.Nodup.cons ?_ (ih _)
      intro hmem
      have h' := (specCitations_mem rest (docSource d :: seen) (docSource d)).mp hmem
      exact h'.2.1 (List.mem_cons_self _ _)

theorem specCitations_first (docs : List Document) :
    ∀ (seen : List Scalar) (sc : SubChoice), sc ∈ specCitations seen docs →
    ∃ d, docs.find? (fun d => decide (docSource d = sc.source)) = some d ∧
      docSource d = sc.source ∧ sc.page_number = docPage d := by
  induction docs with
  | nil => intro seen sc h; simp [specCitations] at h
  | cons d rest ih =>
    intro seen sc hmem
    have hmem' : sc ∈ (if pyTruthy (docSource d) = false ∨ docSource d ∈ seen
        then specCitations seen rest
        else ⟨docSource d, docPage d⟩ :: specCitations (docSource d :: seen) rest) := hmem
    by_cases hc : pyTruthy (docSource d) = false ∨ docSource d ∈ seen
    · rw [if_pos hc] at hmem'
      have hprop := (specCitations_mem rest seen sc.source).mp
        (List.mem_map_of_mem SubChoice.source hmem')
      have hne : ¬(docSource d = sc.source) := by
        intro he
        rcases hc with h1 | h1
        · rw [he, hprop.1] at h1; cases h1
        · rw [he] at h1; exact hprop.2.1 h1
      obtain ⟨d', hfind, hsrc, hpage⟩ := ih seen sc hmem'
      refine ⟨d', ?_, hsrc, hpage⟩
      rw [List.find?_cons_of_neg _ (by simpa using hne)]
      exact hfind
    · rw [if_neg hc] at hmem'
      rcases List.mem_cons.mp hmem' with hv | hm
      · refine ⟨d, ?_, ?_, ?_⟩
        · exact List.find?_cons_of_pos _ (decide_eq_true (by rw [hv]))
        · rw [hv]
        · rw [hv]
      · have hprop := (specCitations_mem rest (docSource d :: seen) sc.source).mp
          (List.mem_map_of_mem SubChoice.source hm)
        have hne : ¬(docSource d = sc.source) := by
          intro he
          exact hprop.2.1 (he ▸ List.mem_cons_self _ _)
        obtain ⟨d', hfind, hsrc, hpage⟩ := ih _ sc hm
        refine ⟨d', ?_, hsrc, hpage⟩
        rw [List.find?_cons_of_neg _ (by simpa using hne)]
        exact hfind

/-! ## Claim theorems -/

/-- Claim C3: the citation formatter renders `"{source}（p.{page+1}）"`
(zero-based page shown one-based) exactly when the source's extension
lower-cases to `.pdf` and an integer page is present, and renders the bare
source otherwise; in particular `report.pdf`/page 0 renders `report.pdf（p.1）`
and `notes.docx` with no page renders `notes.docx`. -/
theorem claim_C3 :
    (∀ (path : String) (n : Int),
      (lowerL (pathSuffixL path.toList) = ".pdf".toList →
        _fmt_with_page_if_pdf (Scalar.str path) (Scalar.int n)
          = path ++ "（p." ++ toString (n + 1) ++ "）")
      ∧ (lowerL (pathSuffixL path.toList) ≠ ".pdf".toList →
        _fmt_with_page_if_pdf (Scalar.str path) (Scalar.int n) = path)
      ∧ (_fmt_with_page_if_pdf (Scalar.str path) (Scalar.int n) ≠ path ↔
        lowerL (pathSuffixL path.toList) = ".pdf".toList))
    ∧ (∀ path : String, _fmt_with_page_if_pdf (Scalar.str path) Scalar.pynone = path)
    ∧ _fmt_with_page_if_pdf (Scalar.str "report.pdf") (Scalar.int 0) = "report.pdf（p.1）"
    ∧ _fmt_with_page_if_pdf (Scalar.str "notes.docx") Scalar.pynone = "notes.docx"
    ∧ _fmt_with_page_if_pdf (Scalar.str "report.PDF") (Scalar.int 0) = "report.PDF（p.1）" := by
  have hfmt : ∀ (path : String) (n : Int),
      lowerL (pathSuffixL path.toList) = ".pdf".toList →
      _fmt_with_page_if_pdf (Scalar.str path) (Scalar.int n)
        = path ++ "（p." ++ toString (n + 1) ++ "）" := by
    intro path n h
    show (if lowerL (pathSuffixL (pyStr (Scalar.str path)).toList) = ".pdf".toList ∧
          pyIsInt (Scalar.int n) = true then
        pyStr (Scalar.str path) ++ "（p." ++ toString (pyToInt (Scalar.int n) + 1) ++ "）"
      else pyStr (Scalar.str path)) = _
    rw [if_pos ⟨h, rfl⟩]
    rfl
  have hbare : ∀ (path : String) (n : Int),
      lowerL (pathSuffixL path.toList) ≠ ".pdf".toList →
      _fmt_with_page_if_pdf (Scalar.str path) (Scalar.int n) = path := by
    intro path n h
    show (if lowerL (pathSuffixL (pyStr (Scalar.str path)).toList) = ".pdf".toList ∧
          pyIsInt (Scalar.int n) = true then
        pyStr (Scalar.str path) ++ "（p." ++ toString (pyToInt (Scalar.int n) + 1) ++ "）"
      else pyStr (Scalar.str path)) = _
    rw [if_neg (fun hcontra => h hcontra.1)]
    rfl
  refine ⟨fun path n => ⟨hfmt path n, hbare path n, ?_⟩, ?_, by decide, by decide, by decide⟩
  · constructor
    · intro hne
      by_contra hnp
      exact hne (hbare path n hnp)
    · intro hp heq
      rw [hfmt path n hp] at heq
      have hl := congrArg (fun s : String => s.toList.length) heq
      simp only [String.toList, String.data_append, List.length_append,
        List.length_cons, List.length_nil] at hl
      omega
  · intro path
    show (if lowerL (pathSuffixL (pyStr (Scalar.str path)).toList) = ".pdf".toList ∧
          pyIsInt Scalar.pynone = true then
        pyStr (Scalar.str path) ++ "（p." ++ toString (pyToInt Scalar.pynone + 1) ++ "）"
      else pyStr (Scalar.str path)) = _
    rw [if_neg (fun hcontra => absurd hcontra.2 (by decide))]
    rfl

/-- Claim C3 witness: concrete instances of the page-qualified and bare
renderings, via the general theorem. -/
theorem claim_C3_witness :
    _fmt_with_page_if_pdf (Scalar.str "a/b.PDF") (Scalar.int 4) = "a/b.PDF（p.5）"
    ∧ _fmt_with_page_if_pdf (Scalar.str "notes.docx") (Scalar.int 4) = "notes.docx" := by
  refine ⟨?_, ?_⟩
  · have h := (claim_C3.1 "a/b.PDF" 4).1 (by decide)
    exact h
  · have h := (claim_C3.1 "notes.docx" 4).2.1 (by decide)
    exact h

/-- Claim C6 counterexample: the claim "the icon selector returns the link
icon if and only if the source begins with an HTTP(S) URL scheme" is false:
`httpfoo.docx` does not begin with an HTTP(S) URL scheme, yet the code
(`str(source).startswith("http")`) selects the link icon for it, not the
document icon. -/
theorem claim_C6_counterexample :
    get_source_icon (Scalar.str "httpfoo.docx") = LINK_SOURCE_ICON
    ∧ beginsWithHttpScheme "httpfoo.docx" = false
    ∧ LINK_SOURCE_ICON ≠ DOC_SOURCE_ICON := by
  refine ⟨by decide, by decide, by decide⟩

/-- Claim C6 (amended): the icon selector returns the link icon exactly when
`str(source)` starts with the four characters `"http"` (which covers every
source beginning with an `http://` or `https://` scheme, but also any other
source starting with `"http"`), and the document icon for every other
source. -/
theorem claim_C6 :
    (∀ source : Scalar,
      (get_source_icon source = LINK_SOURCE_ICON ↔ pyStartswith (pyStr source) "http" = true)
      ∧ (get_source_icon source = DOC_SOURCE_ICON ↔ pyStartswith (pyStr source) "http" = false))
    ∧ (∀ s : String, beginsWithHttpScheme s = true →
        get_source_icon (Scalar.str s) = LINK_SOURCE_ICON) := by
  constructor
  · intro source
    unfold get_source_icon
    by_cases h : pyStartswith (pyStr source) "http" = true
    · rw [if_pos h]
      exact ⟨⟨fun _ => h, fun _ => rfl⟩,
        ⟨fun hl => absurd hl (by decide), fun hf => by rw [h] at hf; cases hf⟩⟩
    · have h' : pyStartswith (pyStr source) "http" = false := by
        cases hh : pyStartswith (pyStr source) "http"
        · rfl
        · exact absurd hh h
      rw [if_neg h]
      exact ⟨⟨fun hl => absurd hl.symm (by decide), fun ht => absurd ht h⟩,
        ⟨fun _ => h', fun _ => rfl⟩⟩
  · intro s hs
    have hh : pyStartswith s "http" = true := by
      rcases Bool.or_eq_true_iff.mp hs with h1 | h1
      · exact hasPre_trans _ _ _ (by decide) h1
      · exact hasPre_trans _ _ _ (by decide) h1
    show (if pyStartswith (pyStr (Scalar.str s)) "http" = true then LINK_SOURCE_ICON
      else DOC_SOURCE_ICON) = LINK_SOURCE_ICON
    rw [show pyStr (Scalar.str s) = s from rfl, if_pos hh]

/-- Claim C6 witness: an `https://` URL gets the link icon and an ordinary
file path gets the document icon, via the amended theorem. -/
theorem claim_C6_witness :
    get_source_icon (Scalar.str "https://example.com/page") = LINK_SOURCE_ICON
    ∧ get_source_icon (Scalar.str "docs/rules.pdf") = DOC_SOURCE_ICON := by
  refine ⟨claim_C6.2 "https://example.com/page" (by decide), ?_⟩
  exact (claim_C6.1 (Scalar.str "docs/rules.pdf")).2.mpr (by decide)

/-- Claim C9: `adjust_string` is the identity on every non-string value, and
on a platform whose name does not start with `"win"` it is the identity on
every value (so NFC canonicalization and dropping of cp932-unencodable
characters happen only on Windows). -/
theorem claim_C9 :
    (∀ (platform : String) (nfc : List Char → List Char) (enc : Char → Bool) (v : Scalar),
      pyStartswith platform "win" = false → adjust_string platform nfc enc v = v)
    ∧ (∀ (platform : String) (nfc : List Char → List Char) (enc : Char → Bool) (v : Scalar),
      isStrScalar v = false → adjust_string platform nfc enc v = v) := by
  constructor
  · intro platform nfc enc v h
    cases v with
    | str s =>
      show (if pyStartswith platform "win" = true then
          Scalar.str (String.mk ((nfc s.toList).filter enc))
        else Scalar.str s) = Scalar.str s
      rw [if_neg (by rw [h]; exact fun hc => Bool.noConfusion hc)]
    | int n => rfl
    | bool b => rfl
    | pynone => rfl
  · intro platform nfc enc v h
    cases v with
    | str s => simp [isStrScalar] at h
    | int n => rfl
    | bool b => rfl
    | pynone => rfl

/-- Claim C9 witness: identity on a string on a non-Windows platform and on
an integer on Windows, via the theorem. -/
theorem claim_C9_witness :
    adjust_string "linux" (fun cs => cs) (fun _ => true) (Scalar.str "社員") = Scalar.str "社員"
    ∧ adjust_string "win32" (fun cs => cs) (fun _ => true) (Scalar.int 7) = Scalar.int 7 :=
  ⟨claim_C9.1 "linux" (fun cs => cs) (fun _ => true) (Scalar.str "社員") (by decide),
   claim_C9.2 "win32" (fun cs => cs) (fun _ => true) (Scalar.int 7) (by decide)⟩

/-- Claim C5: `adjust_string` is idempotent (and hence document
normalization is idempotent), given the Unicode-table fact that NFC is the
identity on the cp932-filtered image of an NFC-normalized string (cp932
contains no combining characters and no composable pairs, so dropping
unencodable characters from NFC output leaves NFC-stable text). -/
theorem claim_C5 (platform : String) (nfc : List Char → List Char) (enc : Char → Bool)
    (hstab : ∀ cs : List Char, nfc ((nfc cs).filter enc) = (nfc cs).filter enc) :
    (∀ v : Scalar,
      adjust_string platform nfc enc (adjust_string platform nfc enc v)
        = adjust_string platform nfc enc v)
    ∧ (∀ d : Document,
      normalizeDoc platform nfc enc (normalizeDoc platform nfc enc d)
        = normalizeDoc platform nfc enc d) := by
  have hadj : ∀ v : Scalar,
      adjust_string platform nfc enc (adjust_string platform nfc enc v)
        = adjust_string platform nfc enc v := by
    intro v
    cases v with
    | str s =>
      by_cases hw : pyStartswith platform "win" = true
      · show adjust_string platform nfc enc
          (if pyStartswith platform "win" = true then
            Scalar.str (String.mk ((nfc s.toList).filter enc))
          else Scalar.str s) = _
        rw [if_pos hw]
        show (if pyStartswith platform "win" = true then
            Scalar.str (String.mk ((nfc (String.mk ((nfc s.toList).filter enc)).toList).filter enc))
          else _) = _
        rw [if_pos hw]
        show Scalar.str (String.mk ((nfc ((nfc s.toList).filter enc)).filter enc))
          = adjust_string platform nfc enc (Scalar.str s)
        rw [hstab s.toList, filter_twice]
        show _ = (if pyStartswith platform "win" = true then
            Scalar.str (String.mk ((nfc s.toList).filter enc)) else Scalar.str s)
        rw [if_pos hw]
      · show adjust_string platform nfc enc
          (if pyStartswith platform "win" = true then
            Scalar.str (String.mk ((nfc s.toList).filter enc))
          else Scalar.str s) = _
        rw [if_neg hw]
    | int n => rfl
    | bool b => rfl
    | pynone => rfl
  refine ⟨hadj, ?_⟩
  intro d
  have hstr : ∀ s : String, ∃ s',
      adjust_string platform nfc enc (Scalar.str s) = Scalar.str s' := by
    intro s
    by_cases hw : pyStartswith platform "win" = true
    · exact ⟨String.mk ((nfc s.toList).filter enc), by
        show (if pyStartswith platform "win" = true then
            Scalar.str (String.mk ((nfc s.toList).filter enc)) else Scalar.str s) = _
        rw [if_pos hw]⟩
    · exact ⟨s, by
        show (if pyStartswith platform "win" = true then
            Scalar.str (String.mk ((nfc s.toList).filter enc)) else Scalar.str s) = _
        rw [if_neg hw]⟩
  obtain ⟨c1, hc1⟩ := hstr d.page_content
  show normalizeDoc platform nfc enc
      { page_content :=
          scalarToStr (adjust_string platform nfc enc (Scalar.str d.page_content)) d.page_content,
        metadata := d.metadata.map (fun kv => (kv.1, adjust_string platform nfc enc kv.2)) } = _
  rw [hc1]
  show { page_content := scalarToStr (adjust_string platform nfc enc (Scalar.str c1)) c1,
         metadata := (d.metadata.map (fun kv => (kv.1, adjust_string platform nfc enc kv.2))).map
           (fun kv => (kv.1, adjust_string platform nfc enc kv.2)) }
      = ({ page_content :=
            scalarToStr (adjust_string platform nfc enc (Scalar.str d.page_content)) d.page_content,
           metadata := d.metadata.map (fun kv => (kv.1, adjust_string platform nfc enc kv.2)) }
          : Document)
  have hcontent : adjust_string platform nfc enc (Scalar.str c1) = Scalar.str c1 := by
    have := hadj (Scalar.str d.page_content)
    rw [hc1] at this
    exact this
  refine congrArg₂ Document.mk ?_ ?_
  · simp only [hcontent, hc1, scalarToStr]
  · rw [List.map_map]
    have hfun : ((fun kv : String × Scalar => (kv.1, adjust_string platform nfc enc kv.2)) ∘
        (fun kv : String × Scalar => (kv.1, adjust_string platform nfc enc kv.2)))
        = (fun kv : String × Scalar => (kv.1, adjust_string platform nfc enc kv.2)) := by
      funext kv
      show (kv.1, adjust_string platform nfc enc (adjust_string platform nfc enc kv.2))
          = (kv.1, adjust_string platform nfc enc kv.2)
      rw [hadj]
    rw [hfun]

/-- Claim C5 witness: idempotence at a concrete Windows-platform instance
(with the identity NFC table and an all-encodable cp932 table, for which the
stability hypothesis holds definitionally). -/
theorem claim_C5_witness :
    adjust_string "win32" (fun cs => cs) (fun _ => true)
      (adjust_string "win32" (fun cs => cs) (fun _ => true) (Scalar.str "社内文書"))
      = adjust_string "win32" (fun cs => cs) (fun _ => true) (Scalar.str "社内文書") :=
  (claim_C5 "win32" (fun cs => cs) (fun _ => true) (fun _ => rfl)).1 (Scalar.str "社内文書")

theorem csvRowDocs_length (path : String) (rows : List Row) :
    ∀ i, (csvRowDocs path i rows).length = rows.length := by
  induction rows with
  | nil => intro i; rfl
  | cons r rest ih =>
    intro i
    show (csvRowDocs path i (r :: rest)).length = rest.length + 1
    simp only [csvRowDocs, List.length_cons]
    rw [ih (i + 1)]

theorem file_load_eq (fs : FS) (path : String) :
    file_load fs path =
      (if strLower (splitextExt path) = ".pdf" then
        Except.ok (pyPdfLoader_load path (fs.pdfPages path))
      else if strLower (splitextExt path) = ".docx" then
        Except.ok (docx2txtLoader_load path (fs.docxText path))
      else if strLower (splitextExt path) = ".csv" then
        (if basename path = "社員名簿.csv" then
          Except.ok (_load_and_merge_staff_csv path (fs.rows path))
        else Except.ok (csvLoader_load path (fs.rows path)))
      else if strLower (splitextExt path) = ".txt" then
        (match utf8DecodeStr (fs.bytes path) with
         | some t => Except.ok [{ page_content := t, metadata := [("source", Scalar.str path)] }]
         | Option.none => Except.error ("UnicodeDecodeError: " ++ path))
      else Except.ok []) := rfl

/-- Claim C4: a `.csv` file whose basename is exactly the reserved
staff-directory name `社員名簿.csv` loads as exactly one merged `Document`
(for any number of rows) whose content joins one formatted
department/name/title/email line per row with newlines and whose metadata
carries `source = path` and `kind = merged_csv`; a `.csv` with any other
basename loads one `Document` per row. -/
theorem claim_C4 (fs : FS) (path : String)
    (hext : strLower (splitextExt path) = ".csv") :
    (basename path = "社員名簿.csv" →
      file_load fs path = Except.ok
        [{ page_content := String.intercalate "\n" ((fs.rows path).map staffLine),
           metadata := [("source", Scalar.str path), ("kind", Scalar.str "merged_csv")] }]
      ∧ ∀ docs, file_load fs path = Except.ok docs → docs.length = 1)
    ∧ (basename path ≠ "社員名簿.csv" →
      file_load fs path = Except.ok (csvLoader_load path (fs.rows path))
      ∧ ∀ docs, file_load fs path = Except.ok docs → docs.length = (fs.rows path).length) := by
  have h1 : ¬ strLower (splitextExt path) = ".pdf" := by rw [hext]; decide
  have h2 : ¬ strLower (splitextExt path) = ".docx" := by rw [hext]; decide
  constructor
  · intro hname
    have heq : file_load fs path = Except.ok
        [{ page_content := String.intercalate "\n" ((fs.rows path).map staffLine),
           metadata := [("source", Scalar.str path), ("kind", Scalar.str "merged_csv")] }] := by
      rw [file_load_eq, if_neg h1, if_neg h2, if_pos hext, if_pos hname]
      rfl
    refine ⟨heq, ?_⟩
    intro docs hdocs
    rw [heq] at hdocs
    cases hdocs
    rfl
  · intro hname
    have heq : file_load fs path = Except.ok (csvLoader_load path (fs.rows path)) := by
      rw [file_load_eq, if_neg h1, if_neg h2, if_pos hext, if_neg hname]
    refine ⟨heq, ?_⟩
    intro docs hdocs
    rw [heq] at hdocs
    cases hdocs
    exact csvRowDocs_length path (fs.rows path) 0

/-- Claim C4 witness: a two-row staff CSV merges into a single document and
a two-row ordinary CSV loads as two row documents, via the theorem. -/
theorem claim_C4_witness :
    file_load
        ⟨fun _ => [], fun _ => [[("部署", "総務"), ("氏名", "山田")],
          [("部署", "営業"), ("氏名", "佐藤")]], fun _ => [], fun _ => ""⟩
        "data/社員名簿.csv"
      = Except.ok
        [{ page_content := "部署:総務 氏名:山田 役職: メール:\n部署:営業 氏名:佐藤 役職: メール:",
           metadata := [("source", Scalar.str "data/社員名簿.csv"),
             ("kind", Scalar.str "merged_csv")] }]
    ∧ file_load
        ⟨fun _ => [], fun _ => [[("a", "1")], [("a", "2")]], fun _ => [], fun _ => ""⟩
        "data/other.csv"
      = Except.ok
        [{ page_content := "a: 1",
           metadata := [("source", Scalar.str "data/other.csv"), ("row", Scalar.int 0)] },
         { page_content := "a: 2",
           metadata := [("source", Scalar.str "data/other.csv"), ("row", Scalar.int 1)] }] := by
  have h1 := (claim_C4
    ⟨fun _ => [], fun _ => [[("部署", "総務"), ("氏名", "山田")],
      [("部署", "営業"), ("氏名", "佐藤")]], fun _ => [], fun _ => ""⟩
    "data/社員名簿.csv" (by decide)).1 (by decide)
  have h2 := (claim_C4
    ⟨fun _ => [], fun _ => [[("a", "1")], [("a", "2")]], fun _ => [], fun _ => ""⟩
    "data/other.csv" (by decide)).2 (by decide)
  exact ⟨h1.1.trans (congrArg Except.ok (by decide)),
    h2.1.trans (congrArg Except.ok (by decide))⟩

/-- Claim C7: `file_load` dispatches on the case-insensitively compared file
extension; an extension other than `.pdf`/`.docx`/`.csv`/`.txt` is silently
skipped (no documents, no error), and a `.txt` file is decoded as UTF-8,
failing with a decoding error exactly when its bytes are not valid UTF-8. -/
theorem claim_C7 (fs : FS) (path : String) :
    (strLower (splitextExt path) ∉ ([".pdf", ".docx", ".csv", ".txt"] : List String) →
      file_load fs path = Except.ok [])
    ∧ (strLower (splitextExt path) = ".pdf" →
      file_load fs path = Except.ok (pyPdfLoader_load path (fs.pdfPages path)))
    ∧ (strLower (splitextExt path) = ".docx" →
      file_load fs path = Except.ok (docx2txtLoader_load path (fs.docxText path)))
    ∧ (strLower (splitextExt path) = ".txt" →
      ((∃ msg, file_load fs path = Except.error msg) ↔
        utf8DecodeStr (fs.bytes path) = Option.none)
      ∧ (∀ t, utf8DecodeStr (fs.bytes path) = some t →
        file_load fs path = Except.ok
          [{ page_content := t, metadata := [("source", Scalar.str path)] }])) := by
  refine ⟨?_, ?_, ?_, ?_⟩
  · intro h
    have h1 : ¬ strLower (splitextExt path) = ".pdf" := fun hc => h (by rw [hc]; decide)
    have h2 : ¬ strLower (splitextExt path) = ".docx" := fun hc => h (by rw [hc]; decide)
    have h3 : ¬ strLower (splitextExt path) = ".csv" := fun hc => h (by rw [hc]; decide)
    have h4 : ¬ strLower (splitextExt path) = ".txt" := fun hc => h (by rw [hc]; decide)
    rw [file_load_eq, if_neg h1, if_neg h2, if_neg h3, if_neg h4]
  · intro h
    rw [file_load_eq, if_pos h]
  · intro h
    have h1 : ¬ strLower (splitextExt path) = ".pdf" := by rw [h]; decide
    rw [file_load_eq, if_neg h1, if_pos h]
  · intro h
    have h1 : ¬ strLower (splitextExt path) = ".pdf" := by rw [h]; decide
    have h2 : ¬ strLower (splitextExt path) = ".docx" := by rw [h]; decide
    have h3 : ¬ strLower (splitextExt path) = ".csv" := by rw [h]; decide
    have hnone : utf8DecodeStr (fs.bytes path) = Option.none →
        file_load fs path = Except.error ("UnicodeDecodeError: " ++ path) := by
      intro hr
      rw [file_load_eq, if_neg h1, if_neg h2, if_neg h3, if_pos h, hr]
    have hsome : ∀ t, utf8DecodeStr (fs.bytes path) = some t →
        file_load fs path = Except.ok
          [{ page_content := t, metadata := [("source", Scalar.str path)] }] := by
      intro t hr
      rw [file_load_eq, if_neg h1, if_neg h2, if_neg h3, if_pos h, hr]
    refine ⟨⟨?_, fun hdec => ⟨_, hnone hdec⟩⟩, hsome⟩
    rintro ⟨msg, hmsg⟩
    cases hdec : utf8DecodeStr (fs.bytes path) with
    | none => rfl
    | some t0 =>
      rw [hsome t0 hdec] at hmsg
      exact Except.noConfusion hmsg

/-- Claim C7 witness: an unrecognized extension is skipped, a `.TXT` file with
invalid UTF-8 bytes fails with a decoding error, and a `.txt` file with valid
UTF-8 bytes loads as one decoded document, via the theorem. -/
theorem claim_C7_witness :
    file_load ⟨fun _ => [], fun _ => [], fun _ => [], fun _ => ""⟩ "archive.xyz"
      = Except.ok []
    ∧ utf8DecodeStr [0xFF] = Option.none
    ∧ file_load ⟨fun _ => [0xFF], fun _ => [], fun _ => [], fun _ => ""⟩ "note.TXT"
      = Except.error "UnicodeDecodeError: note.TXT"
    ∧ file_load ⟨fun _ => [0x61, 0xE3, 0x81, 0x82], fun _ => [], fun _ => [], fun _ => ""⟩
        "note.txt"
      = Except.ok [{ page_content := "aあ", metadata := [("source", Scalar.str "note.txt")] }] := by
  refine ⟨(claim_C7 ⟨fun _ => [], fun _ => [], fun _ => [], fun _ => ""⟩ "archive.xyz").1
    (by decide), by decide, rfl, ?_⟩
  exact ((claim_C7 ⟨fun _ => [0x61, 0xE3, 0x81, 0x82], fun _ => [], fun _ => [], fun _ => ""⟩
    "note.txt").2.2.2 (by decide)).2 "aあ" (by decide)

theorem display_search_pos_els (d0 : Document) (rest : List Document) (ans : String)
    (h : ans ≠ NO_DOC_MATCH_ANSWER) :
    (display_search_llm_response ⟨d0 :: rest, ans⟩).1 =
      [El.markdown "入力内容に関する情報は、以下のファイルに含まれている可能性があります。",
       El.success (_fmt_with_page_if_pdf (docSource d0) (docPage d0))
         (get_source_icon (docSource d0))]
      ++ (if (searchLoop rest ([], [docSource d0])).1 = [] then []
          else El.markdown "その他、ファイルありかの候補を提示します。" ::
            ((searchLoop rest ([], [docSource d0])).1).map (fun sub =>
              El.info (_fmt_with_page_if_pdf sub.source sub.page_number)
                (get_source_icon sub.source))) := by
  show ((if ans = NO_DOC_MATCH_ANSWER then searchNoMatch else _ : List El × Content)).1 = _
  rw [if_neg h]

theorem display_search_pos_content (d0 : Document) (rest : List Document) (ans : String)
    (h : ans ≠ NO_DOC_MATCH_ANSWER) :
    (display_search_llm_response ⟨d0 :: rest, ans⟩).2 =
      [("mode", CVal.sc (Scalar.str ANSWER_MODE_1)),
       ("main_message",
        CVal.sc (Scalar.str "入力内容に関する情報は、以下のファイルに含まれている可能性があります。")),
       ("main_file_path", CVal.sc (docSource d0))]
      ++ (if docPage d0 = Scalar.pynone then []
          else [("main_page_number", CVal.sc (docPage d0))])
      ++ (if (searchLoop rest ([], [docSource d0])).1 = [] then []
          else [("sub_message", CVal.sc (Scalar.str "その他、ファイルありかの候補を提示します。")),
                ("sub_choices", CVal.subs (searchLoop rest ([], [docSource d0])).1)]) := by
  show ((if ans = NO_DOC_MATCH_ANSWER then searchNoMatch else _ : List El × Content)).2 = _
  rw [if_neg h]

theorem display_contact_pos_els (ctx : List Document) (ans : String)
    (h : ans ≠ INQUIRY_NO_MATCH_ANSWER) :
    (display_contact_llm_response ⟨ctx, ans⟩).1 =
      [El.markdown ans, El.divider, El.markdown ("##### " ++ "情報源")] ++
        (contactLoop ctx ([], [], [])).1 := by
  show ((if ans = INQUIRY_NO_MATCH_ANSWER then _ else _ : List El × Content)).1 = _
  rw [if_neg h]

theorem display_contact_pos_content (ctx : List Document) (ans : String)
    (h : ans ≠ INQUIRY_NO_MATCH_ANSWER) :
    (display_contact_llm_response ⟨ctx, ans⟩).2 =
      [("mode", CVal.sc (Scalar.str ANSWER_MODE_2)),
       ("answer", CVal.sc (Scalar.str ans)),
       ("message", CVal.sc (Scalar.str "情報源")),
       ("file_info_list", CVal.strs (contactLoop ctx ([], [], [])).2.1)] := by
  show ((if ans = INQUIRY_NO_MATCH_ANSWER then _ else _ : List El × Content)).2 = _
  rw [if_neg h]

theorem subChoicesOf_search (d0 : Document) (rest : List Document) (ans : String)
    (h : ans ≠ NO_DOC_MATCH_ANSWER) :
    subChoicesOf (display_search_llm_response ⟨d0 :: rest, ans⟩).2
      = (searchLoop rest ([], [docSource d0])).1 := by
  rw [display_search_pos_content d0 rest ans h]
  by_cases hpn : docPage d0 = Scalar.pynone
  · rw [if_pos hpn]
    by_cases hsub : (searchLoop rest ([], [docSource d0])).1 = []
    · rw [if_pos hsub, hsub]; rfl
    · rw [if_neg hsub]; rfl
  · rw [if_neg hpn]
    by_cases hsub : (searchLoop rest ([], [docSource d0])).1 = []
    · rw [if_pos hsub, hsub]; rfl
    · rw [if_neg hsub]; rfl

theorem fileInfoListOf_contact (ctx : List Document) (ans : String)
    (h : ans ≠ INQUIRY_NO_MATCH_ANSWER) :
    fileInfoListOf (display_contact_llm_response ⟨ctx, ans⟩).2
      = (specCitations [] ctx).map
          (fun sc => _fmt_with_page_if_pdf sc.source sc.page_number) := by
  rw [display_contact_pos_content ctx ans h]
  show (contactLoop ctx ([], [], [])).2.1 = _
  rw [contactLoop_eq]
  rfl

/-- Claim C2: in search mode an empty context or a sentinel-equal answer
yields exactly the fixed no-documents-found content (no citations, no
`sub_choices` key); in inquiry mode a sentinel answer yields only the
verbatim answer with no source list, and a non-sentinel answer carries the
deduplicated source list. -/
theorem claim_C2 :
    (∀ resp : LLMResponse, resp.context = [] →
      display_search_llm_response resp
        = ([El.markdown NO_DOC_MATCH_MESSAGE],
           [("mode", CVal.sc (Scalar.str ANSWER_MODE_1)),
            ("answer", CVal.sc (Scalar.str NO_DOC_MATCH_MESSAGE)),
            ("no_file_path_flg", CVal.sc (Scalar.bool true))])
      ∧ cget (display_search_llm_response resp).2 "sub_choices" = Option.none
      ∧ cget (display_search_llm_response resp).2 "main_file_path" = Option.none)
    ∧ (∀ resp : LLMResponse, resp.answer = NO_DOC_MATCH_ANSWER →
      display_search_llm_response resp
        = ([El.markdown NO_DOC_MATCH_MESSAGE],
           [("mode", CVal.sc (Scalar.str ANSWER_MODE_1)),
            ("answer", CVal.sc (Scalar.str NO_DOC_MATCH_MESSAGE)),
            ("no_file_path_flg", CVal.sc (Scalar.bool true))])
      ∧ cget (display_search_llm_response resp).2 "sub_choices" = Option.none)
    ∧ (∀ resp : LLMResponse, resp.answer = INQUIRY_NO_MATCH_ANSWER →
      display_contact_llm_response resp
        = ([El.markdown resp.answer],
           [("mode", CVal.sc (Scalar.str ANSWER_MODE_2)),
            ("answer", CVal.sc (Scalar.str resp.answer))])
      ∧ cget (display_contact_llm_response resp).2 "file_info_list" = Option.none)
    ∧ (∀ resp : LLMResponse, resp.answer ≠ INQUIRY_NO_MATCH_ANSWER →
      cget (display_contact_llm_response resp).2 "file_info_list"
        = some (CVal.strs ((specCitations [] resp.context).map
            (fun sc => _fmt_with_page_if_pdf sc.source sc.page_number)))) := by
  refine ⟨?_, ?_, ?_, ?_⟩
  · intro resp h
    obtain ⟨ctx, ans⟩ := resp
    have h' : ctx = [] := h
    subst h'
    exact ⟨rfl, rfl, rfl⟩
  · intro resp h
    obtain ⟨ctx, ans⟩ := resp
    have h' : ans = NO_DOC_MATCH_ANSWER := h
    subst h'
    cases ctx with
    | nil => exact ⟨rfl, rfl⟩
    | cons d0 rest => exact ⟨rfl, rfl⟩
  · intro resp h
    obtain ⟨ctx, ans⟩ := resp
    have h' : ans = INQUIRY_NO_MATCH_ANSWER := h
    subst h'
    exact ⟨rfl, rfl⟩
  · intro resp h
    obtain ⟨ctx, ans⟩ := resp
    have h' : ans ≠ INQUIRY_NO_MATCH_ANSWER := h
    rw [display_contact_pos_content ctx ans h']
    show some (CVal.strs ((contactLoop ctx ([], [], [])).2.1)) = _
    rw [contactLoop_eq]
    rfl

/-- Claim C2 witness: the three sentinel shapes and the attached deduplicated
source list at concrete inputs, via the theorem. -/
theorem claim_C2_witness :
    display_search_llm_response ⟨[], "q"⟩
      = ([El.markdown NO_DOC_MATCH_MESSAGE],
         [("mode", CVal.sc (Scalar.str ANSWER_MODE_1)),
          ("answer", CVal.sc (Scalar.str NO_DOC_MATCH_MESSAGE)),
          ("no_file_path_flg", CVal.sc (Scalar.bool true))])
    ∧ cget (display_contact_llm_response
        ⟨[⟨"p", [("source", Scalar.str "A")]⟩], INQUIRY_NO_MATCH_ANSWER⟩).2 "file_info_list"
      = Option.none
    ∧ cget (display_contact_llm_response
        ⟨[⟨"p", [("source", Scalar.str "A")]⟩], "回答"⟩).2 "file_info_list"
      = some (CVal.strs ["A"]) := by
  refine ⟨(claim_C2.1 ⟨[], "q"⟩ rfl).1,
    (claim_C2.2.2.1 ⟨[⟨"p", [("source", Scalar.str "A")]⟩], INQUIRY_NO_MATCH_ANSWER⟩ rfl).2, ?_⟩
  exact (claim_C2.2.2.2 ⟨[⟨"p", [("source", Scalar.str "A")]⟩], "回答"⟩ (by decide)).trans
    (by decide)

/-- Claim C10: candidates with missing or empty source are dropped from the
secondary-citation and source lists in both modes, but in search mode the
rank-0 primary citation is emitted even with missing source metadata, stored
and rendered as the empty string (with the document icon). -/
theorem claim_C10 :
    (∀ (resp : LLMResponse) (d0 : Document) (rest : List Document),
      resp.context = d0 :: rest → resp.answer ≠ NO_DOC_MATCH_ANSWER →
      metaGet d0.metadata "source" = Option.none →
      cget (display_search_llm_response resp).2 "main_file_path"
        = some (CVal.sc (Scalar.str ""))
      ∧ ∃ els', (display_search_llm_response resp).1 =
          El.markdown "入力内容に関する情報は、以下のファイルに含まれている可能性があります。"
          :: El.success "" DOC_SOURCE_ICON :: els')
    ∧ (∀ (resp : LLMResponse) (d0 : Document) (rest : List Document),
      resp.context = d0 :: rest → resp.answer ≠ NO_DOC_MATCH_ANSWER →
      (∀ sub ∈ subChoicesOf (display_search_llm_response resp).2,
        pyTruthy sub.source = true)
      ∧ Scalar.str "" ∉ (subChoicesOf (display_search_llm_response resp).2).map
          SubChoice.source)
    ∧ (∀ resp : LLMResponse, resp.answer ≠ INQUIRY_NO_MATCH_ANSWER →
      fileInfoListOf (display_contact_llm_response resp).2
        = (specCitations [] resp.context).map
            (fun sc => _fmt_with_page_if_pdf sc.source sc.page_number)
      ∧ (∀ sub ∈ specCitations [] resp.context, pyTruthy sub.source = true)
      ∧ Scalar.str "" ∉ (specCitations [] resp.context).map SubChoice.source) := by
  refine ⟨?_, ?_, ?_⟩
  · intro resp d0 rest hctx hans hsrc
    obtain ⟨ctx, ans⟩ := resp
    have hctx' : ctx = d0 :: rest := hctx
    have hans' : ans ≠ NO_DOC_MATCH_ANSWER := hans
    subst hctx'
    have hds : docSource d0 = Scalar.str "" := by
      show (metaGet d0.metadata "source").getD (Scalar.str "") = _
      rw [hsrc]
      rfl
    constructor
    · rw [display_search_pos_content d0 rest ans hans', hds]
      rfl
    · rw [display_search_pos_els d0 rest ans hans', hds]
      exact ⟨_, rfl⟩
  · intro resp d0 rest hctx hans
    obtain ⟨ctx, ans⟩ := resp
    have hctx' : ctx = d0 :: rest := hctx
    have hans' : ans ≠ NO_DOC_MATCH_ANSWER := hans
    subst hctx'
    have hs : subChoicesOf (display_search_llm_response ⟨d0 :: rest, ans⟩).2
        = specCitations [docSource d0] rest := by
      rw [subChoicesOf_search d0 rest ans hans', searchLoop_eq]
      rfl
    rw [hs]
    constructor
    · intro sub hsub
      exact ((specCitations_mem rest [docSource d0] sub.source).mp
        (List.mem_map_of_mem SubChoice.source hsub)).1
    · intro hmem
      exact absurd ((specCitations_mem rest [docSource d0] (Scalar.str "")).mp hmem).1
        (by decide)
  · intro resp hans
    obtain ⟨ctx, ans⟩ := resp
    have hans' : ans ≠ INQUIRY_NO_MATCH_ANSWER := hans
    refine ⟨fileInfoListOf_contact ctx ans hans', ?_, ?_⟩
    · intro sub hsub
      exact ((specCitations_mem ctx [] sub.source).mp
        (List.mem_map_of_mem SubChoice.source hsub)).1
    · intro hmem
      exact absurd ((specCitations_mem ctx [] (Scalar.str "")).mp hmem).1 (by decide)

/-- Claim C10 witness: rank-0 passage without source metadata is emitted as
an empty-string primary, and empty-source candidates are dropped from both
deduplicated lists, via the theorem. -/
theorem claim_C10_witness :
    cget (display_search_llm_response
        ⟨[⟨"p0", [("page", Scalar.int 1)]⟩, ⟨"p1", [("source", Scalar.str "")]⟩,
          ⟨"p2", [("source", Scalar.str "S.pdf"), ("page", Scalar.int 0)]⟩], "x"⟩).2
        "main_file_path"
      = some (CVal.sc (Scalar.str ""))
    ∧ subChoicesOf (display_search_llm_response
        ⟨[⟨"p0", [("page", Scalar.int 1)]⟩, ⟨"p1", [("source", Scalar.str "")]⟩,
          ⟨"p2", [("source", Scalar.str "S.pdf"), ("page", Scalar.int 0)]⟩], "x"⟩).2
      = [⟨Scalar.str "S.pdf", Scalar.int 0⟩]
    ∧ fileInfoListOf (display_contact_llm_response
        ⟨[⟨"p0", [("page", Scalar.int 1)]⟩, ⟨"p1", [("source", Scalar.str "")]⟩,
          ⟨"p2", [("source", Scalar.str "S.pdf"), ("page", Scalar.int 0)]⟩], "x"⟩).2
      = ["S.pdf（p.1）"] := by
  refine ⟨(claim_C10.1 ⟨[⟨"p0", [("page", Scalar.int 1)]⟩, ⟨"p1", [("source", Scalar.str "")]⟩,
      ⟨"p2", [("source", Scalar.str "S.pdf"), ("page", Scalar.int 0)]⟩], "x"⟩
      ⟨"p0", [("page", Scalar.int 1)]⟩ _ rfl (by decide) rfl).1, by decide, ?_⟩
  exact (claim_C10.2.2 ⟨[⟨"p0", [("page", Scalar.int 1)]⟩, ⟨"p1", [("source", Scalar.str "")]⟩,
      ⟨"p2", [("source", Scalar.str "S.pdf"), ("page", Scalar.int 0)]⟩], "x"⟩
    (by decide)).1.trans (by decide)

/-- Claim C1: in both modes the shaped citation list has exactly one entry
per distinct source of the retrieval result (sources assumed present and
non-empty, the loader invariant): candidates are scanned in rank order, the
first occurrence of a source is kept with that occurrence's page, later
occurrences are dropped regardless of page; in search mode the primary
citation is the rank-0 passage's source and the secondary list excludes it. -/
theorem claim_C1 (resp : LLMResponse) (d0 : Document) (rest : List Document)
    (hctx : resp.context = d0 :: rest)
    (hans1 : resp.answer ≠ NO_DOC_MATCH_ANSWER)
    (hans2 : resp.answer ≠ INQUIRY_NO_MATCH_ANSWER)
    (hsrc : ∀ d ∈ resp.context, pyTruthy (docSource d) = true) :
    cget (display_search_llm_response resp).2 "main_file_path"
      = some (CVal.sc (docSource d0))
    ∧ subChoicesOf (display_search_llm_response resp).2
      = specCitations [docSource d0] rest
    ∧ ((subChoicesOf (display_search_llm_response resp).2).map SubChoice.source).Nodup
    ∧ (∀ sub ∈ subChoicesOf (display_search_llm_response resp).2,
        sub.source ≠ docSource d0)
    ∧ (∀ v : Scalar,
        v ∈ (subChoicesOf (display_search_llm_response resp).2).map SubChoice.source ↔
          (v ∈ rest.map docSource ∧ v ≠ docSource d0))
    ∧ (∀ sub ∈ subChoicesOf (display_search_llm_response resp).2,
        ∃ d, rest.find? (fun d => decide (docSource d = sub.source)) = some d ∧
          docSource d = sub.source ∧ sub.page_number = docPage d)
    ∧ fileInfoListOf (display_contact_llm_response resp).2
      = (specCitations [] resp.context).map
          (fun sc => _fmt_with_page_if_pdf sc.source sc.page_number)
    ∧ ((specCitations [] resp.context).map SubChoice.source).Nodup
    ∧ (∀ v : Scalar,
        v ∈ (specCitations [] resp.context).map SubChoice.source ↔
          v ∈ resp.context.map docSource)
    ∧ (∀ sub ∈ specCitations [] resp.context,
        ∃ d, resp.context.find? (fun d => decide (docSource d = sub.source)) = some d ∧
          docSource d = sub.source ∧ sub.page_number = docPage d) := by
  obtain ⟨ctx, ans⟩ := resp
  have hctx' : ctx = d0 :: rest := hctx
  have hans1' : ans ≠ NO_DOC_MATCH_ANSWER := hans1
  have hans2' : ans ≠ INQUIRY_NO_MATCH_ANSWER := hans2
  subst hctx'
  have hsrc' : ∀ d ∈ d0 :: rest, pyTruthy (docSource d) = true := hsrc
  have hs : subChoicesOf (display_search_llm_response ⟨d0 :: rest, ans⟩).2
      = specCitations [docSource d0] rest := by
    rw [subChoicesOf_search d0 rest ans hans1', searchLoop_eq]
    rfl
  refine ⟨?_, hs, ?_, ?_, ?_, ?_, fileInfoListOf_contact (d0 :: rest) ans hans2', ?_, ?_, ?_⟩
  · rw [display_search_pos_content d0 rest ans hans1']
    rfl
  · rw [hs]
    exact specCitations_nodup rest [docSource d0]
  · rw [hs]
    intro sub hsub he
    have h' := (specCitations_mem rest [docSource d0] sub.source).mp
      (List.mem_map_of_mem SubChoice.source hsub)
    exact h'.2.1 (by rw [he]; exact List.mem_singleton_self _)
  · rw [hs]
    intro v
    constructor
    · intro hm
      have h' := (specCitations_mem rest [docSource d0] v).mp hm
      exact ⟨h'.2.2, fun he => h'.2.1 (by rw [he]; exact List.mem_singleton_self _)⟩
    · rintro ⟨hin, hne⟩
      obtain ⟨d, hd, hdv⟩ := List.mem_map.mp hin
      have ht := hsrc' d (List.mem_cons_of_mem _ hd)
      rw [hdv] at ht
      exact (specCitations_mem rest [docSource d0] v).mpr
        ⟨ht, fun hm => hne (List.mem_singleton.mp hm), hin⟩
  · rw [hs]
    exact specCitations_first rest [docSource d0]
  · exact specCitations_nodup (d0 :: rest) []
  · intro v
    constructor
    · intro hm
      exact ((specCitations_mem (d0 :: rest) [] v).mp hm).2.2
    · intro hin
      obtain ⟨d, hd, hdv⟩ := List.mem_map.mp hin
      have ht := hsrc' d hd
      rw [hdv] at ht
      exact (specCitations_mem (d0 :: rest) [] v).mpr ⟨ht, List.not_mem_nil v, hin⟩
  · exact specCitations_first (d0 :: rest) []

/-- Claim C1 witness: the spec's best-match scenario
`[P1(A.pdf, page 2), P2(A.pdf, page 5), P3(B)]`: the primary citation is the
rank-0 source, `A.pdf` is deduplicated out of the secondary list (only `B`
remains, despite P2's differing page), and the inquiry source list keeps the
first occurrence's page (`A.pdf（p.3）`, not p.6), via the theorem. -/
theorem claim_C1_witness :
    cget (display_search_llm_response
        ⟨[⟨"p1", [("source", Scalar.str "A.pdf"), ("page", Scalar.int 2)]⟩,
          ⟨"p2", [("source", Scalar.str "A.pdf"), ("page", Scalar.int 5)]⟩,
          ⟨"p3", [("source", Scalar.str "B")]⟩], "ans"⟩).2 "main_file_path"
      = some (CVal.sc (Scalar.str "A.pdf"))
    ∧ subChoicesOf (display_search_llm_response
        ⟨[⟨"p1", [("source", Scalar.str "A.pdf"), ("page", Scalar.int 2)]⟩,
          ⟨"p2", [("source", Scalar.str "A.pdf"), ("page", Scalar.int 5)]⟩,
          ⟨"p3", [("source", Scalar.str "B")]⟩], "ans"⟩).2
      = [⟨Scalar.str "B", Scalar.pynone⟩]
    ∧ fileInfoListOf (display_contact_llm_response
        ⟨[⟨"p1", [("source", Scalar.str "A.pdf"), ("page", Scalar.int 2)]⟩,
          ⟨"p2", [("source", Scalar.str "A.pdf"), ("page", Scalar.int 5)]⟩,
          ⟨"p3", [("source", Scalar.str "B")]⟩], "ans"⟩).2
      = ["A.pdf（p.3）", "B"] := by
  have h := claim_C1
    ⟨[⟨"p1", [("source", Scalar.str "A.pdf"), ("page", Scalar.int 2)]⟩,
      ⟨"p2", [("source", Scalar.str "A.pdf"), ("page", Scalar.int 5)]⟩,
      ⟨"p3", [("source", Scalar.str "B")]⟩], "ans"⟩
    ⟨"p1", [("source", Scalar.str "A.pdf"), ("page", Scalar.int 2)]⟩
    [⟨"p2", [("source", Scalar.str "A.pdf"), ("page", Scalar.int 5)]⟩,
     ⟨"p3", [("source", Scalar.str "B")]⟩]
    rfl (by decide) (by decide) (by decide)
  exact ⟨h.1, h.2.1.trans (by decide), h.2.2.2.2.2.2.1.trans (by decide)⟩

/-- Claim C8: replaying the assistant content dictionary produced by either
response shaper through the conversation-log renderer reproduces exactly the
sequence of elements rendered live when the dictionary was produced. -/
theorem claim_C8 (resp : LLMResponse) :
    renderAssistantMessage (display_search_llm_response resp).2
      = some (display_search_llm_response resp).1
    ∧ renderAssistantMessage (display_contact_llm_response resp).2
      = some (display_contact_llm_response resp).1 := by
  obtain ⟨ctx, ans⟩ := resp
  constructor
  · cases ctx with
    | nil =>
      show renderAssistantMessage searchNoMatch.2 = some searchNoMatch.1
      rfl
    | cons d0 rest =>
      by_cases hans : ans = NO_DOC_MATCH_ANSWER
      · subst hans
        show renderAssistantMessage searchNoMatch.2 = some searchNoMatch.1
        rfl
      · rw [display_search_pos_els d0 rest ans hans,
          display_search_pos_content d0 rest ans hans]
        cases hpn : docPage d0 <;>
          cases hq : (searchLoop rest ([], [docSource d0])).1 <;> rfl
  · by_cases hans : ans = INQUIRY_NO_MATCH_ANSWER
    · subst hans
      rfl
    · rw [display_contact_pos_els ctx ans hans,
        display_contact_pos_content ctx ans hans, contactLoop_eq]
      show some ([El.markdown ans, El.divider, El.markdown ("##### " ++ "情報源")] ++
          ((specCitations [] ctx).map
            (fun sc => _fmt_with_page_if_pdf sc.source sc.page_number)).map
              (fun fi => El.info fi (get_source_icon (Scalar.str fi))))
        = some ([El.markdown ans, El.divider, El.markdown ("##### " ++ "情報源")] ++
          (specCitations [] ctx).map (fun sc =>
            El.info (_fmt_with_page_if_pdf sc.source sc.page_number)
              (get_source_icon sc.source)))
      rw [List.map_map]
      have hfun : ((fun fi => El.info fi (get_source_icon (Scalar.str fi))) ∘
          (fun sc : SubChoice => _fmt_with_page_if_pdf sc.source sc.page_number))
          = (fun sc : SubChoice =>
              El.info (_fmt_with_page_if_pdf sc.source sc.page_number)
                (get_source_icon sc.source)) := by
        funext sc
        show El.info (_fmt_with_page_if_pdf sc.source sc.page_number)
            (get_source_icon (Scalar.str (_fmt_with_page_if_pdf sc.source sc.page_number)))
          = _
        rw [get_source_icon_fmt]
      rw [hfun]

end CompanySearch
